import Mathlib

/-!
Shallow embedding of the `go-config` package (src/config.go) in Lean 4.

Modelling choices:
* The dynamic `any` values of Go are the inductive `Value` below, covering the
  dynamic types the package inspects: `string`, `int`, `bool`, `float64`,
  `[]string` and `[]any`.
* `float64` values are modelled by the exact rational number they denote
  (`Rat`).  The package performs no floating-point arithmetic: it only
  compares floats and truncates them to `int`, and both operations on IEEE
  doubles coincide with the corresponding exact operations on the rationals
  they represent.
* The Go type `map[string]any` is modelled as an association list
  (`List (String × Value)`) with replace-on-insert semantics; a map produced
  by a Go source always has pairwise-distinct keys, which appears as a
  `Nodup` hypothesis where a produced mapping is quantified over.
* Methods on `*ConfigManager` are state-passing functions returning
  `result × ConfigManager`; the `(T, bool)` comma-ok results are `Option T`
  (`none` ↔ `(zero, false)`).
* Go `error` values are the inductive `GoError`; `fmt.Errorf` with `%w`
  becomes `GoError.wrapped`, and the structured validator errors keep the
  data interpolated into their messages.  The production step of a `Source`,
  `Load() (map[string]any, error)` is its result, `Except GoError ValuesMap`.
-/

/-- Dynamic values stored in the configuration (`any` in Go, restricted to
the types the package inspects). -/
inductive Value where
  | vString (s : String)
  | vInt (n : Int)
  | vBool (b : Bool)
  | vFloat (q : Rat)
  | vStringSlice (l : List String)
  | vAnySlice (l : List Value)

/-- Go `error` values produced by the package. -/
inductive GoError where
  /-- an arbitrary error from a source or a validator -/
  | simple (msg : String)
  /-- `fmt.Errorf("...: %w", cause)` -/
  | wrapped (msg : String) (cause : GoError)
  /-- `fmt.Errorf("required configuration key missing: %s", key)` -/
  | requiredKeyMissing (key : String)
  /-- `fmt.Errorf("invalid type for range validation on key %s: expected number", key)` -/
  | rangeInvalidType (key : String)
  /-- `fmt.Errorf("value for key %s is out of range: expected between %v and %v", key, min, max)` -/
  | rangeOutOfRange (key : String) (min max : Rat)
  /-- `fmt.Errorf("value for key %s must be an integer", key)` -/
  | rangeNotInt (key : String)
  deriving DecidableEq

/-- The model of the Go type `map[string]any`. -/
abbrev ValuesMap := List (String × Value)

/-- `values[key]` comma-ok lookup on a Go map, on the association-list model:
the first binding of the key, if any. -/
def lookupV : ValuesMap → String → Option Value
  | [], _ => none
  | (k', v) :: rest, k => if k' = k then some v else lookupV rest k

/-- `values[key] = v` map assignment on the association-list model: replace
the binding of the key if present, otherwise append it. -/
def insertV : ValuesMap → String → Value → ValuesMap
  | [], k, v => [(k, v)]
  | (k', v') :: rest, k, v =>
      if k' = k then (k, v) :: rest else (k', v') :: insertV rest k v

/-- `for k, v := range values { m[k] = v }`: merge the produced mapping into
the store key by key. -/
def mergeV (m : ValuesMap) (l : ValuesMap) : ValuesMap :=
  l.foldl (fun acc kv => insertV acc kv.1 kv.2) m

/-- The Go conversion `int(f)` on a `float64`: truncation toward zero, on the
exact rational the float denotes. -/
def truncTowardZero (q : Rat) : Int :=
  if 0 ≤ q.num then q.num / q.den else -((-q.num) / q.den)

/-- A `Validator` is its `Validate(values map[string]any) error` method
(`none` is the `nil` error of Go). -/
abbrev Validator := ValuesMap → Option GoError

/-- `ConfigManager` (the mutex only guards the two fields and has no
sequential meaning). -/
structure ConfigManager where
  values : ValuesMap
  validators : List Validator

/-- `func New() *ConfigManager`. -/
def New : ConfigManager :=
  { values := [], validators := [] }

namespace ConfigManager

/-- `func (c *ConfigManager) Get(key string) (any, bool)`. -/
def Get (c : ConfigManager) (key : String) : Option Value × ConfigManager :=
  (lookupV c.values key, c)

/-- `func (c *ConfigManager) GetString(key string) (string, bool)`. -/
def GetString (c : ConfigManager) (key : String) : Option String × ConfigManager :=
  match (c.Get key).1 with
  | some (Value.vString s) => (some s, c)
  | some _ => (none, c)
  | none => (none, c)

/-- `func (c *ConfigManager) GetInt(key string) (int, bool)`. -/
def GetInt (c : ConfigManager) (key : String) : Option Int × ConfigManager :=
  match (c.Get key).1 with
  | some (Value.vInt n) => (some n, c)
  | some (Value.vFloat q) => (some (truncTowardZero q), c)
  | some _ => (none, c)
  | none => (none, c)

/-- `func (c *ConfigManager) GetBool(key string) (bool, bool)`. -/
def GetBool (c : ConfigManager) (key : String) : Option Bool × ConfigManager :=
  match (c.Get key).1 with
  | some (Value.vBool b) => (some b, c)
  | some _ => (none, c)
  | none => (none, c)

/-- `func (c *ConfigManager) GetFloat(key string) (float64, bool)`.
`float64(v)` on an `int` is modelled exactly (the casts the claims exercise
are within the exact range of `float64`). -/
def GetFloat (c : ConfigManager) (key : String) : Option Rat × ConfigManager :=
  match (c.Get key).1 with
  | some (Value.vFloat q) => (some q, c)
  | some (Value.vInt n) => (some (n : Rat), c)
  | some _ => (none, c)
  | none => (none, c)

/-- The element loop of `GetStringSlice` over a `[]any`: build the slice of
the string contents of the elements, failing as a whole on the first non-string
element. -/
def stringsOf : List Value → Option (List String)
  | [] => some []
  | Value.vString s :: rest => (stringsOf rest).map (fun r => s :: r)
  | _ :: _ => none

/-- `func (c *ConfigManager) GetStringSlice(key string) ([]string, bool)`. -/
def GetStringSlice (c : ConfigManager) (key : String) :
    Option (List String) × ConfigManager :=
  match (c.Get key).1 with
  | some (Value.vStringSlice l) => (some l, c)
  | some (Value.vAnySlice l) => (stringsOf l, c)
  | some _ => (none, c)
  | none => (none, c)

/-- `func (c *ConfigManager) Set(key string, value any) error`. -/
def Set (c : ConfigManager) (key : String) (value : Value) :
    Option GoError × ConfigManager :=
  (none, { c with values := insertV c.values key value })

/-- `func (c *ConfigManager) Load(source Source) error`, applied to the
result of the production step `source.Load()` of the source. -/
def Load (c : ConfigManager) (source : Except GoError ValuesMap) :
    Option GoError × ConfigManager :=
  match source with
  | Except.error e => (some (GoError.wrapped "failed to load configuration" e), c)
  | Except.ok values => (none, { c with values := mergeV c.values values })

/-- The loop of `Validate`: run the validators in order against the one
snapshot of the values, returning the first error. -/
def runValidators : List Validator → ValuesMap → Option GoError
  | [], _ => none
  | v :: rest, values =>
      match v values with
      | some e => some e
      | none => runValidators rest values

/-- `func (c *ConfigManager) Validate() error`. -/
def Validate (c : ConfigManager) : Option GoError × ConfigManager :=
  (runValidators c.validators c.values, c)

/-- `func (c *ConfigManager) AddValidator(validator Validator)`. -/
def AddValidator (c : ConfigManager) (v : Validator) : ConfigManager :=
  { c with validators := c.validators ++ [v] }

end ConfigManager

/-- `type RequiredValidator struct { Keys []string }`. -/
structure RequiredValidator where
  Keys : List String

/-- `func (v *RequiredValidator) Validate(values map[string]any) error`. -/
def RequiredValidator.run (keys : List String) (values : ValuesMap) :
    Option GoError :=
  match keys with
  | [] => none
  | k :: rest =>
      if (lookupV values k).isSome then RequiredValidator.run rest values
      else some (GoError.requiredKeyMissing k)

/-- The `Validator` a `*RequiredValidator` implements. -/
def RequiredValidator.Validate (v : RequiredValidator) : Validator :=
  fun values => RequiredValidator.run v.Keys values

/-- `type RangeValidator struct { Key string; Min, Max float64; IsInt bool }`. -/
structure RangeValidator where
  Key : String
  Min : Rat
  Max : Rat
  IsInt : Bool

/-- `func (v *RangeValidator) Validate(values map[string]any) error`. -/
def RangeValidator.Validate (v : RangeValidator) : Validator :=
  fun values =>
    match lookupV values v.Key with
    | none => none
    | some val =>
      match val with
      | Value.vFloat q =>
          if q < v.Min ∨ q > v.Max then
            some (GoError.rangeOutOfRange v.Key v.Min v.Max)
          else if v.IsInt ∧ q ≠ ((truncTowardZero q : Int) : Rat) then
            some (GoError.rangeNotInt v.Key)
          else none
      | Value.vInt n =>
          if (n : Rat) < v.Min ∨ (n : Rat) > v.Max then
            some (GoError.rangeOutOfRange v.Key v.Min v.Max)
          else if v.IsInt ∧ (n : Rat) ≠ ((truncTowardZero (n : Rat) : Int) : Rat) then
            some (GoError.rangeNotInt v.Key)
          else none
      | _ => some (GoError.rangeInvalidType v.Key)

/-! ### Association-list map lemmas -/

theorem lookupV_insertV_self (m : ValuesMap) (k : String) (v : Value) :
    lookupV (insertV m k v) k = some v := by
  induction m with
  | nil => simp [insertV, lookupV]
  | cons kv rest ih =>
      obtain ⟨k', v'⟩ := kv
      by_cases h : k' = k <;> simp [insertV, lookupV, h, ih]

theorem lookupV_insertV_ne (m : ValuesMap) (k : String) (v : Value) (k' : String)
    (h : k ≠ k') : lookupV (insertV m k v) k' = lookupV m k' := by
  induction m with
  | nil => simp [insertV, lookupV, h]
  | cons kv rest ih =>
      obtain ⟨k₁, v₁⟩ := kv
      by_cases h₁ : k₁ = k
      · subst h₁
        simp [insertV, lookupV, h]
      · simp [insertV, lookupV, h₁, ih]

theorem mergeV_cons (m : ValuesMap) (k : String) (v : Value) (rest : ValuesMap) :
    mergeV m ((k, v) :: rest) = mergeV (insertV m k v) rest := rfl

theorem lookupV_mergeV_of_none :
    ∀ (l m : ValuesMap) (k : String), lookupV l k = none →
      lookupV (mergeV m l) k = lookupV m k
  | [], _, _, _ => rfl
  | (k₁, v₁) :: rest, m, k, h => by
      have hne : k₁ ≠ k := by
        intro he
        simp [lookupV, he] at h
      have hrest : lookupV rest k = none := by
        simpa [lookupV, hne] using h
      rw [mergeV_cons, lookupV_mergeV_of_none rest (insertV m k₁ v₁) k hrest,
        lookupV_insertV_ne m k₁ v₁ k hne]

theorem lookupV_eq_none_of_not_mem (m : ValuesMap) (k : String)
    (h : k ∉ m.map Prod.fst) : lookupV m k = none := by
  induction m with
  | nil => rfl
  | cons kv rest ih =>
      obtain ⟨k₁, v₁⟩ := kv
      simp only [List.map_cons, List.mem_cons, not_or] at h
      have hne : ¬k₁ = k := fun he => h.1 he.symm
      simp [lookupV, hne, ih h.2]

theorem lookupV_mergeV_of_some :
    ∀ (l m : ValuesMap) (k : String) (v : Value), (l.map Prod.fst).Nodup →
      lookupV l k = some v → lookupV (mergeV m l) k = some v
  | [], _, _, _, _, h => by simp [lookupV] at h
  | (k₁, v₁) :: rest, m, k, v, hnd, h => by
      rw [List.map_cons, List.nodup_cons] at hnd
      by_cases he : k₁ = k
      · subst he
        have hv : v₁ = v := by simpa [lookupV] using h
        subst hv
        have hrest : lookupV rest k₁ = none :=
          lookupV_eq_none_of_not_mem rest k₁ hnd.1
        rw [mergeV_cons, lookupV_mergeV_of_none rest (insertV m k₁ v₁) k₁ hrest,
          lookupV_insertV_self m k₁ v₁]
      · have hrest : lookupV rest k = some v := by simpa [lookupV, he] using h
        rw [mergeV_cons]
        exact lookupV_mergeV_of_some rest (insertV m k₁ v₁) k v hnd.2 hrest

/-! ### Helper lemmas about the operation bodies -/

theorem stringsOf_map_vString (s : List String) :
    ConfigManager.stringsOf (s.map Value.vString) = some s := by
  induction s with
  | nil => rfl
  | cons a rest ih => simp [ConfigManager.stringsOf, ih]

theorem stringsOf_eq_none :
    ∀ (l : List Value), (∃ x ∈ l, ∀ s, x ≠ Value.vString s) →
      ConfigManager.stringsOf l = none
  | [], h => by simp at h
  | a :: rest, h => by
      obtain ⟨x, hx, hns⟩ := h
      rcases List.mem_cons.mp hx with he | hm
      · subst he
        cases x with
        | vString s => exact absurd rfl (hns s)
        | vInt n => rfl
        | vBool b => rfl
        | vFloat q => rfl
        | vStringSlice ls => rfl
        | vAnySlice lv => rfl
      · have hrest := stringsOf_eq_none rest ⟨x, hm, hns⟩
        cases a <;> simp [ConfigManager.stringsOf, hrest]

theorem runValidators_append_none (pre rest : List Validator) (m : ValuesMap)
    (h : ∀ u ∈ pre, u m = none) :
    ConfigManager.runValidators (pre ++ rest) m =
      ConfigManager.runValidators rest m := by
  induction pre with
  | nil => rfl
  | cons u pre ih =>
      have hu : u m = none := h u (List.mem_cons_self u pre)
      rw [List.cons_append]
      simp only [ConfigManager.runValidators, hu]
      exact ih fun u' hu' => h u' (List.mem_cons_of_mem u hu')

theorem runValidators_none (vs : List Validator) (m : ValuesMap)
    (h : ∀ u ∈ vs, u m = none) : ConfigManager.runValidators vs m = none := by
  induction vs with
  | nil => rfl
  | cons u vs ih =>
      have hu : u m = none := h u (List.mem_cons_self u vs)
      simp only [ConfigManager.runValidators, hu]
      exact ih fun u' hu' => h u' (List.mem_cons_of_mem u hu')

theorem requiredRun_eq_find (keys : List String) (values : ValuesMap) :
    RequiredValidator.run keys values =
      (keys.find? fun k => (lookupV values k).isNone).map GoError.requiredKeyMissing := by
  induction keys with
  | nil => rfl
  | cons k rest ih =>
      cases h : lookupV values k with
      | some v => simp [RequiredValidator.run, List.find?, h, ih]
      | none => simp [RequiredValidator.run, List.find?, h]

theorem truncTowardZero_intCast (n : Int) : truncTowardZero (n : Rat) = n := by
  unfold truncTowardZero
  rw [Rat.num_intCast, Rat.den_intCast]
  split <;> simp

/-! ### Claim theorems -/

/-- C1: Load precedence (last-loaded-source wins).  For every store state and
every pair of produced mappings `as` then `bs` (both productions succeed, so
both loads return `nil`), after `Load(A)` followed by `Load(B)` every key
defined by `bs` maps to the value from `bs`, every key defined by `as` but
not by `bs` maps to the value from `as`, and every key in neither produced mapping keeps
its prior value.  A mapping produced by a Go source has pairwise-distinct
keys, hence the `Nodup` hypotheses. -/
theorem load_precedence (c : ConfigManager) (as bs : ValuesMap) (k : String)
    (hA : (as.map Prod.fst).Nodup) (hB : (bs.map Prod.fst).Nodup) :
    (c.Load (Except.ok as)).1 = none ∧
    ((c.Load (Except.ok as)).2.Load (Except.ok bs)).1 = none ∧
    (∀ v, lookupV bs k = some v →
      lookupV ((c.Load (Except.ok as)).2.Load (Except.ok bs)).2.values k = some v) ∧
    (∀ v, lookupV bs k = none → lookupV as k = some v →
      lookupV ((c.Load (Except.ok as)).2.Load (Except.ok bs)).2.values k = some v) ∧
    (lookupV bs k = none → lookupV as k = none →
      lookupV ((c.Load (Except.ok as)).2.Load (Except.ok bs)).2.values k =
        lookupV c.values k) := by
  refine ⟨rfl, rfl, ?_, ?_, ?_⟩
  · intro v hv
    exact lookupV_mergeV_of_some bs (mergeV c.values as) k v hB hv
  · intro v hb ha
    show lookupV (mergeV (mergeV c.values as) bs) k = some v
    rw [lookupV_mergeV_of_none bs (mergeV c.values as) k hb]
    exact lookupV_mergeV_of_some as c.values k v hA ha
  · intro hb ha
    show lookupV (mergeV (mergeV c.values as) bs) k = lookupV c.values k
    rw [lookupV_mergeV_of_none bs (mergeV c.values as) k hb]
    exact lookupV_mergeV_of_none as c.values k ha

/-- Witness for C1 on concrete data: load `[a ↦ 1, k ↦ 2]` then `[k ↦ 3]`
into the fresh store; `k` has the value from B, `a` keeps the value from A, and an
untouched key is unchanged. -/
theorem load_precedence_witness :
    (([("a", Value.vInt 1), ("k", Value.vInt 2)] : ValuesMap).map Prod.fst).Nodup ∧
    (([("k", Value.vInt 3)] : ValuesMap).map Prod.fst).Nodup ∧
    lookupV ((New.Load (Except.ok [("a", Value.vInt 1), ("k", Value.vInt 2)])).2.Load
      (Except.ok [("k", Value.vInt 3)])).2.values "k" = some (Value.vInt 3) ∧
    lookupV ((New.Load (Except.ok [("a", Value.vInt 1), ("k", Value.vInt 2)])).2.Load
      (Except.ok [("k", Value.vInt 3)])).2.values "a" = some (Value.vInt 1) ∧
    lookupV ((New.Load (Except.ok [("a", Value.vInt 1), ("k", Value.vInt 2)])).2.Load
      (Except.ok [("k", Value.vInt 3)])).2.values "z" = lookupV New.values "z" := by
  refine ⟨by decide, by decide, ?_, ?_, ?_⟩
  · exact (load_precedence New [("a", Value.vInt 1), ("k", Value.vInt 2)]
      [("k", Value.vInt 3)] "k" (by decide) (by decide)).2.2.1 (Value.vInt 3) rfl
  · exact (load_precedence New [("a", Value.vInt 1), ("k", Value.vInt 2)]
      [("k", Value.vInt 3)] "a" (by decide) (by decide)).2.2.2.1 (Value.vInt 1) rfl rfl
  · exact (load_precedence New [("a", Value.vInt 1), ("k", Value.vInt 2)]
      [("k", Value.vInt 3)] "z" (by decide) (by decide)).2.2.2.2 rfl rfl

/-- C2: Load atomicity-on-failure.  When the production step of the source fails
with error `e`, `Load` returns the `SourceLoadError`
`fmt.Errorf("failed to load configuration: %w", e)` wrapping `e`, and the
whole manager state (values and validators) is exactly what it was before
the call. -/
theorem load_failure_atomic (c : ConfigManager) (e : GoError) :
    (c.Load (Except.error e)).1 =
      some (GoError.wrapped "failed to load configuration" e) ∧
    (c.Load (Except.error e)).2 = c :=
  ⟨rfl, rfl⟩

/-- C3: Set/Get round trip.  `Set(k, v)` returns `nil`, and an immediately
following `Get(k)` returns `(v, true)`. -/
theorem set_get_roundtrip (c : ConfigManager) (k : String) (v : Value) :
    (c.Set k v).1 = none ∧ ((c.Set k v).2.Get k).1 = some v :=
  ⟨rfl, lookupV_insertV_self c.values k v⟩

/-- C4: GetInt coercion.  `GetInt(k)` returns the stored integer as-is,
truncates a stored floating-point number toward zero, and returns
not-found (`(0, false)`, i.e. `none`) when the key is absent or the stored
value has any other dynamic type (string, bool, sequence). -/
theorem getInt_coercion (c : ConfigManager) (k : String) :
    (∀ n, lookupV c.values k = some (Value.vInt n) → (c.GetInt k).1 = some n) ∧
    (∀ q, lookupV c.values k = some (Value.vFloat q) →
      (c.GetInt k).1 = some (truncTowardZero q)) ∧
    (lookupV c.values k = none → (c.GetInt k).1 = none) ∧
    (∀ s, lookupV c.values k = some (Value.vString s) → (c.GetInt k).1 = none) ∧
    (∀ b, lookupV c.values k = some (Value.vBool b) → (c.GetInt k).1 = none) ∧
    (∀ ls, lookupV c.values k = some (Value.vStringSlice ls) → (c.GetInt k).1 = none) ∧
    (∀ lv, lookupV c.values k = some (Value.vAnySlice lv) → (c.GetInt k).1 = none) := by
  refine ⟨?_, ?_, ?_, ?_, ?_, ?_, ?_⟩ <;>
    (intros; simp_all [ConfigManager.GetInt, ConfigManager.Get])

/-- Witness for C4: on a store holding `i ↦ 5`, `f ↦ 42.7`, `s ↦ "hi"`,
`GetInt` returns `5`, `42` (truncation, not rounding) and not-found
respectively, and not-found on an absent key. -/
theorem getInt_coercion_witness :
    lookupV [("i", Value.vInt 5), ("f", Value.vFloat (mkRat 427 10)),
      ("s", Value.vString "hi")] "i" = some (Value.vInt 5) ∧
    ((⟨[("i", Value.vInt 5), ("f", Value.vFloat (mkRat 427 10)),
      ("s", Value.vString "hi")], []⟩ : ConfigManager).GetInt "i").1 = some 5 ∧
    ((⟨[("i", Value.vInt 5), ("f", Value.vFloat (mkRat 427 10)),
      ("s", Value.vString "hi")], []⟩ : ConfigManager).GetInt "f").1 = some 42 ∧
    ((⟨[("i", Value.vInt 5), ("f", Value.vFloat (mkRat 427 10)),
      ("s", Value.vString "hi")], []⟩ : ConfigManager).GetInt "s").1 = none ∧
    ((⟨[("i", Value.vInt 5), ("f", Value.vFloat (mkRat 427 10)),
      ("s", Value.vString "hi")], []⟩ : ConfigManager).GetInt "z").1 = none := by
  refine ⟨rfl, ?_, ?_, ?_, ?_⟩
  · exact (getInt_coercion ⟨[("i", Value.vInt 5), ("f", Value.vFloat (mkRat 427 10)),
      ("s", Value.vString "hi")], []⟩ "i").1 5 rfl
  · have h := (getInt_coercion ⟨[("i", Value.vInt 5), ("f", Value.vFloat (mkRat 427 10)),
      ("s", Value.vString "hi")], []⟩ "f").2.1 (mkRat 427 10) rfl
    rw [h]
    decide
  · exact (getInt_coercion ⟨[("i", Value.vInt 5), ("f", Value.vFloat (mkRat 427 10)),
      ("s", Value.vString "hi")], []⟩ "s").2.2.2.1 "hi" rfl
  · exact (getInt_coercion ⟨[("i", Value.vInt 5), ("f", Value.vFloat (mkRat 427 10)),
      ("s", Value.vString "hi")], []⟩ "z").2.2.1 rfl

/-- C5: GetStringSlice all-or-nothing coercion.  `GetStringSlice(k)` returns
the stored sequence of strings as-is, returns the element-wise string
contents of a sequence of `any` values when every element is a string, and
returns `(nil, false)` — with no partial slice — when the key is absent,
when the value has any other type, or when at least one element of the
`any` sequence is not a string. -/
theorem getStringSlice_all_or_nothing (c : ConfigManager) (k : String) :
    (∀ s, lookupV c.values k = some (Value.vStringSlice s) →
      (c.GetStringSlice k).1 = some s) ∧
    (∀ s, lookupV c.values k = some (Value.vAnySlice (s.map Value.vString)) →
      (c.GetStringSlice k).1 = some s) ∧
    (lookupV c.values k = none → (c.GetStringSlice k).1 = none) ∧
    (∀ s, lookupV c.values k = some (Value.vString s) → (c.GetStringSlice k).1 = none) ∧
    (∀ n, lookupV c.values k = some (Value.vInt n) → (c.GetStringSlice k).1 = none) ∧
    (∀ b, lookupV c.values k = some (Value.vBool b) → (c.GetStringSlice k).1 = none) ∧
    (∀ q, lookupV c.values k = some (Value.vFloat q) → (c.GetStringSlice k).1 = none) ∧
    (∀ lv, lookupV c.values k = some (Value.vAnySlice lv) →
      (∃ x ∈ lv, ∀ s, x ≠ Value.vString s) → (c.GetStringSlice k).1 = none) := by
  refine ⟨?_, ?_, ?_, ?_, ?_, ?_, ?_, ?_⟩
  · intro s h
    simp [ConfigManager.GetStringSlice, ConfigManager.Get, h]
  · intro s h
    simp [ConfigManager.GetStringSlice, ConfigManager.Get, h, stringsOf_map_vString]
  · intro h
    simp [ConfigManager.GetStringSlice, ConfigManager.Get, h]
  · intro s h
    simp [ConfigManager.GetStringSlice, ConfigManager.Get, h]
  · intro n h
    simp [ConfigManager.GetStringSlice, ConfigManager.Get, h]
  · intro b h
    simp [ConfigManager.GetStringSlice, ConfigManager.Get, h]
  · intro q h
    simp [ConfigManager.GetStringSlice, ConfigManager.Get, h]
  · intro lv h hex
    simp [ConfigManager.GetStringSlice, ConfigManager.Get, h, stringsOf_eq_none lv hex]

/-- Witness for C5: a `[]string`, an all-string `[]any`, the mixed list
`["a", 1, "c"]` of `any` elements (no partial slice), a non-sequence value
and an absent key. -/
theorem getStringSlice_all_or_nothing_witness :
    lookupV [("ok", Value.vStringSlice ["one", "two"]),
        ("anyok", Value.vAnySlice [Value.vString "a", Value.vString "c"]),
        ("mixed", Value.vAnySlice [Value.vString "a", Value.vInt 1, Value.vString "c"]),
        ("str", Value.vString "x")] "mixed" =
      some (Value.vAnySlice [Value.vString "a", Value.vInt 1, Value.vString "c"]) ∧
    (Value.vInt 1 ∈ [Value.vString "a", Value.vInt 1, Value.vString "c"] ∧
      ∀ s, Value.vInt 1 ≠ Value.vString s) ∧
    ((⟨[("ok", Value.vStringSlice ["one", "two"]),
        ("anyok", Value.vAnySlice [Value.vString "a", Value.vString "c"]),
        ("mixed", Value.vAnySlice [Value.vString "a", Value.vInt 1, Value.vString "c"]),
        ("str", Value.vString "x")], []⟩ : ConfigManager).GetStringSlice "ok").1 =
      some ["one", "two"] ∧
    ((⟨[("ok", Value.vStringSlice ["one", "two"]),
        ("anyok", Value.vAnySlice [Value.vString "a", Value.vString "c"]),
        ("mixed", Value.vAnySlice [Value.vString "a", Value.vInt 1, Value.vString "c"]),
        ("str", Value.vString "x")], []⟩ : ConfigManager).GetStringSlice "anyok").1 =
      some ["a", "c"] ∧
    ((⟨[("ok", Value.vStringSlice ["one", "two"]),
        ("anyok", Value.vAnySlice [Value.vString "a", Value.vString "c"]),
        ("mixed", Value.vAnySlice [Value.vString "a", Value.vInt 1, Value.vString "c"]),
        ("str", Value.vString "x")], []⟩ : ConfigManager).GetStringSlice "mixed").1 = none ∧
    ((⟨[("ok", Value.vStringSlice ["one", "two"]),
        ("anyok", Value.vAnySlice [Value.vString "a", Value.vString "c"]),
        ("mixed", Value.vAnySlice [Value.vString "a", Value.vInt 1, Value.vString "c"]),
        ("str", Value.vString "x")], []⟩ : ConfigManager).GetStringSlice "str").1 = none ∧
    ((⟨[("ok", Value.vStringSlice ["one", "two"]),
        ("anyok", Value.vAnySlice [Value.vString "a", Value.vString "c"]),
        ("mixed", Value.vAnySlice [Value.vString "a", Value.vInt 1, Value.vString "c"]),
        ("str", Value.vString "x")], []⟩ : ConfigManager).GetStringSlice "zzz").1 = none := by
  refine ⟨rfl, ⟨List.mem_cons_of_mem _ (List.mem_cons_self _ _),
    fun s h => Value.noConfusion h⟩, ?_, ?_, ?_, ?_, ?_⟩
  · exact (getStringSlice_all_or_nothing ⟨[("ok", Value.vStringSlice ["one", "two"]),
      ("anyok", Value.vAnySlice [Value.vString "a", Value.vString "c"]),
      ("mixed", Value.vAnySlice [Value.vString "a", Value.vInt 1, Value.vString "c"]),
      ("str", Value.vString "x")], []⟩ "ok").1 ["one", "two"] rfl
  · exact (getStringSlice_all_or_nothing ⟨[("ok", Value.vStringSlice ["one", "two"]),
      ("anyok", Value.vAnySlice [Value.vString "a", Value.vString "c"]),
      ("mixed", Value.vAnySlice [Value.vString "a", Value.vInt 1, Value.vString "c"]),
      ("str", Value.vString "x")], []⟩ "anyok").2.1 ["a", "c"] rfl
  · exact (getStringSlice_all_or_nothing ⟨[("ok", Value.vStringSlice ["one", "two"]),
      ("anyok", Value.vAnySlice [Value.vString "a", Value.vString "c"]),
      ("mixed", Value.vAnySlice [Value.vString "a", Value.vInt 1, Value.vString "c"]),
      ("str", Value.vString "x")], []⟩ "mixed").2.2.2.2.2.2.2
      [Value.vString "a", Value.vInt 1, Value.vString "c"] rfl
      ⟨Value.vInt 1, List.mem_cons_of_mem _ (List.mem_cons_self _ _),
        fun s h => Value.noConfusion h⟩
  · exact (getStringSlice_all_or_nothing ⟨[("ok", Value.vStringSlice ["one", "two"]),
      ("anyok", Value.vAnySlice [Value.vString "a", Value.vString "c"]),
      ("mixed", Value.vAnySlice [Value.vString "a", Value.vInt 1, Value.vString "c"]),
      ("str", Value.vString "x")], []⟩ "str").2.2.2.1 "x" rfl
  · exact (getStringSlice_all_or_nothing ⟨[("ok", Value.vStringSlice ["one", "two"]),
      ("anyok", Value.vAnySlice [Value.vString "a", Value.vString "c"]),
      ("mixed", Value.vAnySlice [Value.vString "a", Value.vInt 1, Value.vString "c"]),
      ("str", Value.vString "x")], []⟩ "zzz").2.2.1 rfl

/-- C6: Validate ordering and short-circuit.  `Validate` runs the registered
validators in registration order against the one snapshot of the full
mapping: if every validator before `v` succeeds and `v` fails with `e`,
`Validate` returns `e` without consulting the validators after `v`; if every
validator succeeds, it returns `nil`.  `AddValidator` appends, so the list
order is the registration order. -/
theorem validate_order_short_circuit (m : ValuesMap) (pre post vs : List Validator)
    (v : Validator) (e : GoError) :
    ((∀ u ∈ pre, u m = none) → v m = some e →
      (ConfigManager.Validate ⟨m, pre ++ v :: post⟩).1 = some e) ∧
    ((∀ u ∈ vs, u m = none) → (ConfigManager.Validate ⟨m, vs⟩).1 = none) ∧
    (∀ c : ConfigManager, (c.AddValidator v).validators = c.validators ++ [v]) := by
  refine ⟨?_, ?_, fun c => rfl⟩
  · intro hpre hv
    show ConfigManager.runValidators (pre ++ v :: post) m = some e
    rw [runValidators_append_none pre (v :: post) m hpre]
    simp [ConfigManager.runValidators, hv]
  · intro hall
    exact runValidators_none vs m hall

/-- Witness for C6: with an empty store, a `RequiredValidator` on `["a"]`
registered before an always-failing validator, `Validate` reports the
missing-key error for `"a"`, not the error of the second validator; with no
validators it returns `nil`. -/
theorem validate_order_short_circuit_witness :
    (∀ u ∈ ([] : List Validator), u ([] : ValuesMap) = none) ∧
    RequiredValidator.Validate ⟨["a"]⟩ ([] : ValuesMap) =
      some (GoError.requiredKeyMissing "a") ∧
    (ConfigManager.Validate ⟨[], [] ++ RequiredValidator.Validate ⟨["a"]⟩ ::
      [fun _ => some (GoError.simple "validation failed")]⟩).1 =
      some (GoError.requiredKeyMissing "a") ∧
    (ConfigManager.Validate ⟨[], ([] : List Validator)⟩).1 = none := by
  refine ⟨by simp, rfl, ?_, ?_⟩
  · exact (validate_order_short_circuit [] []
      [fun _ => some (GoError.simple "validation failed")] []
      (RequiredValidator.Validate ⟨["a"]⟩) (GoError.requiredKeyMissing "a")).1
      (by simp) rfl
  · exact (validate_order_short_circuit [] [] [] []
      (RequiredValidator.Validate ⟨["a"]⟩) (GoError.requiredKeyMissing "a")).2.1
      (by simp)

/-- C7: RangeValidator semantics.  The validator succeeds when its key is
absent; errors when the value is neither an integer nor a float; errors when
the numeric value is strictly below `Min` or strictly above `Max` (bounds
inclusive); with `IsInt` set it additionally errors when a float value has a
nonzero fractional part; and it succeeds on every in-range value otherwise
(an `int` value always passes the `IsInt` check). -/
theorem rangeValidator_semantics (values : ValuesMap) (key : String)
    (lo hi : Rat) (b : Bool) :
    (lookupV values key = none →
      RangeValidator.Validate ⟨key, lo, hi, b⟩ values = none) ∧
    (∀ s, lookupV values key = some (Value.vString s) →
      RangeValidator.Validate ⟨key, lo, hi, b⟩ values =
        some (GoError.rangeInvalidType key)) ∧
    (∀ bb, lookupV values key = some (Value.vBool bb) →
      RangeValidator.Validate ⟨key, lo, hi, b⟩ values =
        some (GoError.rangeInvalidType key)) ∧
    (∀ ls, lookupV values key = some (Value.vStringSlice ls) →
      RangeValidator.Validate ⟨key, lo, hi, b⟩ values =
        some (GoError.rangeInvalidType key)) ∧
    (∀ lv, lookupV values key = some (Value.vAnySlice lv) →
      RangeValidator.Validate ⟨key, lo, hi, b⟩ values =
        some (GoError.rangeInvalidType key)) ∧
    (∀ q, lookupV values key = some (Value.vFloat q) → (q < lo ∨ q > hi) →
      RangeValidator.Validate ⟨key, lo, hi, b⟩ values =
        some (GoError.rangeOutOfRange key lo hi)) ∧
    (∀ n : Int, lookupV values key = some (Value.vInt n) →
      ((n : Rat) < lo ∨ (n : Rat) > hi) →
      RangeValidator.Validate ⟨key, lo, hi, b⟩ values =
        some (GoError.rangeOutOfRange key lo hi)) ∧
    (∀ q, lookupV values key = some (Value.vFloat q) → lo ≤ q → q ≤ hi →
      q ≠ ((truncTowardZero q : Int) : Rat) →
      RangeValidator.Validate ⟨key, lo, hi, true⟩ values =
        some (GoError.rangeNotInt key)) ∧
    (∀ q, lookupV values key = some (Value.vFloat q) → lo ≤ q → q ≤ hi →
      q = ((truncTowardZero q : Int) : Rat) →
      RangeValidator.Validate ⟨key, lo, hi, b⟩ values = none) ∧
    (∀ q, lookupV values key = some (Value.vFloat q) → lo ≤ q → q ≤ hi →
      RangeValidator.Validate ⟨key, lo, hi, false⟩ values = none) ∧
    (∀ n : Int, lookupV values key = some (Value.vInt n) →
      lo ≤ (n : Rat) → (n : Rat) ≤ hi →
      RangeValidator.Validate ⟨key, lo, hi, b⟩ values = none) := by
  refine ⟨?_, ?_, ?_, ?_, ?_, ?_, ?_, ?_, ?_, ?_, ?_⟩
  · intro h
    simp [RangeValidator.Validate, h]
  · intro s h
    simp [RangeValidator.Validate, h]
  · intro bb h
    simp [RangeValidator.Validate, h]
  · intro ls h
    simp [RangeValidator.Validate, h]
  · intro lv h
    simp [RangeValidator.Validate, h]
  · intro q h hout
    simp [RangeValidator.Validate, h, hout]
  · intro n h hout
    simp [RangeValidator.Validate, h, hout]
  · intro q h h1 h2 hq
    have hout : ¬(q < lo ∨ q > hi) := by
      push_neg
      exact ⟨h1, h2⟩
    simp [RangeValidator.Validate, h, hout, hq]
  · intro q h h1 h2 hq
    have hout : ¬(q < lo ∨ q > hi) := by
      push_neg
      exact ⟨h1, h2⟩
    simp only [RangeValidator.Validate, h]
    rw [if_neg hout]
    split
    · rename_i hc
      exact absurd hq hc.2
    · rfl
  · intro q h h1 h2
    have hout : ¬(q < lo ∨ q > hi) := by
      push_neg
      exact ⟨h1, h2⟩
    simp [RangeValidator.Validate, h, hout]
  · intro n h h1 h2
    have hout : ¬((n : Rat) < lo ∨ (n : Rat) > hi) := by
      push_neg
      exact ⟨h1, h2⟩
    simp [RangeValidator.Validate, h, hout, truncTowardZero_intCast]

/-- Witness for C7: `RangeValidator{key: "port", min: 1024, max: 65535,
isInt: true}` rejects `1023` and `65536` (out of range), rejects `8080.5`
(nonzero fractional part), and accepts `8080`. -/
theorem rangeValidator_semantics_witness :
    ((1023 : Int) : Rat) < 1024 ∧
    ((65536 : Int) : Rat) > 65535 ∧
    (1024 : Rat) ≤ mkRat 16161 2 ∧
    mkRat 16161 2 ≤ 65535 ∧
    mkRat 16161 2 ≠ ((truncTowardZero (mkRat 16161 2) : Int) : Rat) ∧
    (1024 : Rat) ≤ ((8080 : Int) : Rat) ∧
    ((8080 : Int) : Rat) ≤ 65535 ∧
    RangeValidator.Validate ⟨"port", 1024, 65535, true⟩
      [("port", Value.vInt 1023)] = some (GoError.rangeOutOfRange "port" 1024 65535) ∧
    RangeValidator.Validate ⟨"port", 1024, 65535, true⟩
      [("port", Value.vInt 65536)] = some (GoError.rangeOutOfRange "port" 1024 65535) ∧
    RangeValidator.Validate ⟨"port", 1024, 65535, true⟩
      [("port", Value.vFloat (mkRat 16161 2))] = some (GoError.rangeNotInt "port") ∧
    RangeValidator.Validate ⟨"port", 1024, 65535, true⟩
      [("port", Value.vInt 8080)] = none := by
  refine ⟨by decide, by decide, by decide, by decide, by decide, by decide, by decide,
    ?_, ?_, ?_, ?_⟩
  · exact (rangeValidator_semantics [("port", Value.vInt 1023)] "port" 1024 65535
      true).2.2.2.2.2.2.1 1023 rfl (Or.inl (by decide))
  · exact (rangeValidator_semantics [("port", Value.vInt 65536)] "port" 1024 65535
      true).2.2.2.2.2.2.1 65536 rfl (Or.inr (by decide))
  · exact (rangeValidator_semantics [("port", Value.vFloat (mkRat 16161 2))] "port"
      1024 65535 true).2.2.2.2.2.2.2.1 (mkRat 16161 2) rfl (by decide) (by decide)
      (by decide)
  · exact (rangeValidator_semantics [("port", Value.vInt 8080)] "port" 1024 65535
      true).2.2.2.2.2.2.2.2.2.2 8080 rfl (by decide) (by decide)

/-- C8: RequiredValidator semantics.  Its error is exactly the
"missing key" error naming the first configured key (in the order given)
absent from the mapping, and it succeeds exactly when every configured key
is present. -/
theorem requiredValidator_first_missing (keys : List String) (values : ValuesMap) :
    RequiredValidator.Validate ⟨keys⟩ values =
      (keys.find? fun k => (lookupV values k).isNone).map GoError.requiredKeyMissing ∧
    (RequiredValidator.Validate ⟨keys⟩ values = none ↔
      ∀ k ∈ keys, (lookupV values k).isSome) := by
  have h := requiredRun_eq_find keys values
  have hV : RequiredValidator.Validate ⟨keys⟩ values =
      RequiredValidator.run keys values := rfl
  refine ⟨h, ?_⟩
  rw [hV, h]
  constructor
  · intro hn k hk
    have h1 := Option.map_eq_none'.mp hn
    have h2 := List.find?_eq_none.mp h1 k hk
    cases ho : lookupV values k with
    | none =>
        rw [ho] at h2
        simp at h2
    | some v => simp
  · intro hall
    apply Option.map_eq_none'.mpr
    apply List.find?_eq_none.mpr
    intro k hk
    have hs := hall k hk
    cases ho : lookupV values k with
    | none =>
        rw [ho] at hs
        simp at hs
    | some v => simp

/-- C9: read operations are pure.  `Get`, `GetString`, `GetInt`, `GetBool`,
`GetFloat`, `GetStringSlice` and `Validate` leave the whole manager state —
the key-to-value mapping and the validator list — unchanged. -/
theorem read_ops_pure (c : ConfigManager) (k : String) :
    (c.Get k).2 = c ∧ (c.GetString k).2 = c ∧ (c.GetInt k).2 = c ∧
    (c.GetBool k).2 = c ∧ (c.GetFloat k).2 = c ∧ (c.GetStringSlice k).2 = c ∧
    c.Validate.2 = c := by
  refine ⟨rfl, ?_, ?_, ?_, ?_, ?_, rfl⟩
  · unfold ConfigManager.GetString
    split <;> rfl
  · unfold ConfigManager.GetInt
    split <;> rfl
  · unfold ConfigManager.GetBool
    split <;> rfl
  · unfold ConfigManager.GetFloat
    split <;> rfl
  · unfold ConfigManager.GetStringSlice
    split <;> rfl

/-- C10: fresh-store behaviour.  `New` creates a store with an empty mapping
and an empty validator list; every accessor reports not-found on every key,
and `Validate` returns `nil`. -/
theorem new_store_empty (k : String) :
    New.values = [] ∧ New.validators = [] ∧
    (New.Get k).1 = none ∧ (New.GetString k).1 = none ∧ (New.GetInt k).1 = none ∧
    (New.GetBool k).1 = none ∧ (New.GetFloat k).1 = none ∧
    (New.GetStringSlice k).1 = none ∧ New.Validate.1 = none :=
  ⟨rfl, rfl, rfl, rfl, rfl, rfl, rfl, rfl, rfl⟩

/-- Witness for C8: with keys `["a", "b", "c"]` against a mapping holding
only `"a"`, the validator names `"b"` — the first absent key — and the
success criterion instance holds for `["a"]`. -/
theorem requiredValidator_first_missing_witness :
    RequiredValidator.Validate ⟨["a", "b", "c"]⟩ [("a", Value.vString "x")] =
      ((["a", "b", "c"].find? fun k =>
        (lookupV [("a", Value.vString "x")] k).isNone).map GoError.requiredKeyMissing) ∧
    RequiredValidator.Validate ⟨["a", "b", "c"]⟩ [("a", Value.vString "x")] =
      some (GoError.requiredKeyMissing "b") ∧
    (RequiredValidator.Validate ⟨["a"]⟩ [("a", Value.vString "x")] = none ↔
      ∀ k ∈ ["a"], (lookupV [("a", Value.vString "x")] k).isSome) := by
  refine ⟨(requiredValidator_first_missing ["a", "b", "c"]
    [("a", Value.vString "x")]).1, ?_,
    (requiredValidator_first_missing ["a"] [("a", Value.vString "x")]).2⟩
  rw [(requiredValidator_first_missing ["a", "b", "c"] [("a", Value.vString "x")]).1]
  rfl
